import Mathlib

/-!
Verification of the `jdt` utility library (src/lib.rs) against its
natural-language specification.

The development shallowly embeds the Rust source into Lean:

* Filesystem paths are lists of (already normalized) components; the root
  path `/` is the empty list.
* The directory walker `walk_dir` operates on a finite tree model of the
  filesystem.  Unreadable directories (`read_dir` failure) and unreadable
  individual entries (an `Err` from the `ReadDir` iterator) appear in the
  tree as dedicated constructors, so the error-skipping policy of the
  source can be stated and proved.
* The configuration loader `Project::config` returns the caller type
  directly in Rust (no `Result`), and every failure panics.  The embedding
  returns `Except String`, whose `error` constructor models a process
  abort (`panic! / expect`), not a recoverable error value.
* The helpers `rename_file`, `eq_files`, `metadata_if_exists` and `backup`
  return `io::Result` in Rust; their embeddings return `Except IOError`,
  whose `error` constructor models an error value returned to the caller.
* Nondeterministic environment failures (`create_dir_all`, `fs::write`,
  `fs::rename`, `fs::copy`, `fs::remove_file`) are driven by explicit
  oracle records passed to the embedded functions.
-/

namespace Jdt

open scoped List

/-- A filesystem path, as its list of normalized components.
The platform root `/` is the empty list. -/
abbrev Path := List String

/-! ## The filesystem tree model for `walk_dir` (src/lib.rs lines 51-80) -/

/-- A finite filesystem tree as observed by `walk_dir`:
`file` is anything whose `path.is_dir()` check is false (regular files,
symlinks to files, vanished entries); `dir` is a listable directory with
its entries; `baddir` is a directory whose `fs::read_dir` fails
(permission denied, removed concurrently, nonexistent); `badentry` is a
single directory entry whose read from the `ReadDir` iterator fails. -/
inductive FsTree where
  | file (name : String)
  | baddir (name : String)
  | dir (name : String) (entries : List FsTree)
  | badentry

/-- Number of nodes of a forest, used as the termination measure of the
walker loop. -/
def sizeList : List FsTree → Nat
  | [] => 0
  | FsTree.dir _ ms :: es => 1 + sizeList ms + sizeList es
  | _ :: es => 1 + sizeList es

/-- Paths of the regular files reachable from the entry list of a
directory at path `p` through listable directories and readable entries:
the files `walk_dir` is expected to visit. -/
def dirFilesList : Path → List FsTree → List Path
  | _, [] => []
  | p, FsTree.file m :: es => (p ++ [m]) :: dirFilesList p es
  | p, FsTree.dir m ms :: es => dirFilesList (p ++ [m]) ms ++ dirFilesList p es
  | p, FsTree.baddir _ :: es => dirFilesList p es
  | p, FsTree.badentry :: es => dirFilesList p es

/-- The files reachable from the tree `t` rooted at path `p`, when `t` is
handed to `walk_dir` as the root directory to list. -/
def dirFiles (p : Path) : FsTree → List Path
  | FsTree.dir _ entries => dirFilesList p entries
  | _ => []

/-- `true` when no `read_dir` failure and no unreadable entry occurs
anywhere in the forest. -/
def noErrorsList : List FsTree → Bool
  | [] => true
  | FsTree.file _ :: es => noErrorsList es
  | FsTree.dir _ ms :: es => noErrorsList ms && noErrorsList es
  | FsTree.baddir _ :: _ => false
  | FsTree.badentry :: _ => false

/-- `true` when listing the root and every reachable directory succeeds
and every directory entry is readable. -/
def FsTree.noErrors : FsTree → Bool
  | FsTree.dir _ entries => noErrorsList entries
  | FsTree.baddir _ => false
  | FsTree.badentry => false
  | FsTree.file _ => true

/-- The sub-directories of a listed directory at path `p`, in entry order:
exactly the paths the Rust loop pushes onto `dir_stack` (`path.is_dir()`
reports true both for listable and for unlistable directories). -/
def pushedOf (p : Path) (entries : List FsTree) : List (Path × FsTree) :=
  entries.filterMap fun e => match e with
    | FsTree.dir m _ => some (p ++ [m], e)
    | FsTree.baddir m => some (p ++ [m], e)
    | _ => none

/-- The transform results the Rust loop appends while iterating the
entries of the directory at path `p`: one per non-directory entry, in
entry order; unreadable entries are skipped with a warning. -/
def resultsOf {R : Type} (f : Path → R) (p : Path) (entries : List FsTree) : List R :=
  entries.filterMap fun e => match e with
    | FsTree.file m => some (f (p ++ [m]))
    | _ => none

/-- Total node count of the trees on the work stack. -/
def stackSize (stack : List (Path × FsTree)) : Nat :=
  (stack.map (fun x => sizeList [x.2])).sum

/-- The explicit-stack loop of `walk_dir` (src/lib.rs lines 55-78).  The
head of the list is the top of the stack (the Rust code pops from the end
of a `Vec`, hence `(pushedOf ..).reverse ++ rest` reproduces the order in
which pushed directories are popped).  A directory whose listing fails is
logged and skipped; results of the current directory are appended before
any pushed sub-directory is processed. -/
def walkLoop {R : Type} (f : Path → R) : List (Path × FsTree) → List R
  | [] => []
  | (_, FsTree.file _) :: rest => walkLoop f rest
  | (_, FsTree.baddir _) :: rest => walkLoop f rest
  | (_, FsTree.badentry) :: rest => walkLoop f rest
  | (p, FsTree.dir _ entries) :: rest =>
      resultsOf f p entries ++ walkLoop f ((pushedOf p entries).reverse ++ rest)
termination_by stack => stackSize stack
decreasing_by
  all_goals simp [stackSize, sizeList]
  have key : ∀ (q : Path) (es : List FsTree), stackSize (pushedOf q es) ≤ sizeList es := by
    intro q es
    induction es with
    | nil => simp [pushedOf, stackSize]
    | cons e es ih =>
      cases e <;>
        simp [pushedOf, stackSize, sizeList, List.filterMap_cons] at * <;>
        omega
  have h1 : stackSize ((pushedOf p entries).reverse ++ rest)
      = stackSize (pushedOf p entries) + stackSize rest := by
    simp [stackSize, List.sum_reverse]
  have h2 := key p entries
  simp [stackSize, sizeList] at *
  omega

/-- `walk_dir` (src/lib.rs lines 51-80): seed the stack with the root
path, then run the loop.  `t` is the tree the real filesystem presents at
`root`; the function itself never returns an error. -/
def walk_dir {R : Type} (f : Path → R) (root : Path) (t : FsTree) : List R :=
  walkLoop f [(root, t)]

/-- All files reachable from the directories currently on the work
stack. -/
def stackFiles (stack : List (Path × FsTree)) : List Path :=
  stack.flatMap fun x => dirFiles x.1 x.2

/-! ## Flat filesystem state for the configuration loader and the file
helpers (`config`, `backup`, `rename_file`) -/

/-- Association-list lookup of a file content by path; the most recent
write shadows older entries. -/
def lookupFile : List (Path × String) → Path → Option String
  | [], _ => none
  | q :: qs, p => if q.1 = p then some q.2 else lookupFile qs p

/-- Membership test for the directory list. -/
def memPath : List Path → Path → Bool
  | [], _ => false
  | q :: qs, p => if q = p then true else memPath qs p

/-- Drop every entry stored under path `p`. -/
def removeEntries : List (Path × String) → Path → List (Path × String)
  | [], _ => []
  | q :: qs, p => if q.1 = p then removeEntries qs p else q :: removeEntries qs p

/-- Flat model of the part of the filesystem the configuration loader and
the file helpers touch: a finite set of directories and a finite map from
paths to file contents (as an association list). -/
structure CfgFS where
  dirs : List Path
  files : List (Path × String)
deriving DecidableEq

/-- Content of the regular file at `p`, if one exists. -/
def CfgFS.readFile (fs : CfgFS) (p : Path) : Option String :=
  lookupFile fs.files p

/-- `true` when a regular file exists at `p`. -/
def CfgFS.fileExists (fs : CfgFS) (p : Path) : Bool :=
  (fs.readFile p).isSome

/-- `true` when a directory exists at `p`. -/
def CfgFS.dirExists (fs : CfgFS) (p : Path) : Bool :=
  memPath fs.dirs p

/-- `Path::exists`: true when either a file or a directory is at `p`. -/
def CfgFS.pathExists (fs : CfgFS) (p : Path) : Bool :=
  fs.fileExists p || fs.dirExists p

/-- `fs::create_dir_all` on success: idempotently add the directory.
(Creation of missing parent directories is not modeled; no claim
inspects them.) -/
def CfgFS.createDirAll (fs : CfgFS) (p : Path) : CfgFS :=
  if memPath fs.dirs p then fs else ⟨p :: fs.dirs, fs.files⟩

/-- `fs::write` on success: create or truncate-and-replace the file. -/
def CfgFS.writeFile (fs : CfgFS) (p : Path) (c : String) : CfgFS :=
  ⟨fs.dirs, (p, c) :: fs.files⟩

/-- `fs::remove_file` on success. -/
def CfgFS.removeFile (fs : CfgFS) (p : Path) : CfgFS :=
  ⟨fs.dirs, removeEntries fs.files p⟩

/-! ## `Project` and `Project::config` (src/lib.rs lines 5-49) -/

/-- The `Project` struct (src/lib.rs lines 5-8). -/
structure Project where
  project_name : String
  config_dir : Path
deriving DecidableEq

/-- The serialization capabilities the caller configuration type
`Config: Deserialize + Serialize + Default` provides: a default value,
`toml::to_string_pretty` (which can fail), and the combined
`config::Config` file parse plus `try_deserialize` step (which can
fail). -/
structure SE (α : Type) where
  default : α
  serialize : α → Option String
  deserialize : String → Option α

/-- Environment oracle for the two fallible filesystem calls of
`Project::config`: whether `fs::create_dir_all` and `fs::write` fail. -/
structure CfgEnv where
  createDirFails : Bool
  writeFails : Bool
deriving DecidableEq

/-- `Project::new` (src/lib.rs lines 11-19).  `platform_config_dir` is
the result of `dirs::config_dir()`; when it is `none` the `expect`
panics, modeled by `Except.error`. -/
def Project.new (platform_config_dir : Option Path) (project_name : String) :
    Except String Project :=
  match platform_config_dir with
  | none => Except.error "Failed to get config directory"
  | some d => Except.ok { project_name := project_name, config_dir := d ++ [project_name] }

/-- The `config.toml` path inside the project configuration directory
(src/lib.rs line 22). -/
def Project.configPath (proj : Project) : Path :=
  proj.config_dir ++ ["config.toml"]

/-- `Project::config` (src/lib.rs lines 21-48).  The Rust function
returns `Config` directly; every failure panics, modeled by
`Except.error` carrying the panic message.  On success the new
filesystem state is returned alongside the deserialized value. -/
def Project.config {α : Type} (se : SE α) (env : CfgEnv) (proj : Project)
    (fs : CfgFS) : Except String (α × CfgFS) :=
  if env.createDirFails then Except.error "Failed to create config directory" else
  let fs1 := fs.createDirAll proj.config_dir
  let step : Except String CfgFS :=
    if !(fs1.pathExists proj.configPath) then
      match se.serialize se.default with
      | none => Except.error "Failed to serialize default config"
      | some toml =>
        if env.writeFails then Except.error "Failed to write default config"
        else Except.ok (fs1.writeFile proj.configPath toml)
    else Except.ok fs1
  match step with
  | Except.error e => Except.error e
  | Except.ok fs2 =>
    match fs2.readFile proj.configPath with
    | none => Except.error "Failed to build config"
    | some content =>
      match se.deserialize content with
      | none => Except.error "Failed to deserialize config"
      | some c => Except.ok (c, fs2)

/-! ## `io::Error`, `fs::Metadata`, `metadata_if_exists`, `eq_files`
(src/lib.rs lines 111-131) -/

/-- The `io::ErrorKind` values this library distinguishes. -/
inductive ErrorKind where
  | notFound
  | invalidInput
  | other
deriving DecidableEq

/-- An `io::Error`: its kind, its optional raw OS error code
(`raw_os_error()`), and its message. -/
structure IOError where
  kind : ErrorKind
  rawOsError : Option Nat
  msg : String
deriving DecidableEq

/-- The part of `fs::Metadata` that `eq_files` consults: the device and
inode numbers (`MetadataExt::dev` / `MetadataExt::ino`). -/
structure Metadata where
  dev : Nat
  ino : Nat
deriving DecidableEq

/-- Oracle for `fs::metadata`: what the call returns at each path. -/
def MetaFS := Path → Except IOError Metadata

/-- `metadata_if_exists` (src/lib.rs lines 123-131): a `NotFound` error
becomes `ok none`; any other error is returned to the caller. -/
def metadata_if_exists (fs : MetaFS) (p : Path) : Except IOError (Option Metadata) :=
  match fs p with
  | Except.ok md => Except.ok (some md)
  | Except.error e =>
    match e.kind with
    | ErrorKind.notFound => Except.ok none
    | _ => Except.error e

/-- `eq_files` (src/lib.rs lines 111-121): equal iff both paths exist and
agree on device and inode; both missing is a `NotFound` error; exactly
one missing is `ok false`. -/
def eq_files (fs : MetaFS) (a b : Path) : Except IOError Bool :=
  match metadata_if_exists fs a with
  | Except.error e => Except.error e
  | Except.ok am =>
    match metadata_if_exists fs b with
    | Except.error e => Except.error e
    | Except.ok bm =>
      match am, bm with
      | some am, some bm => Except.ok (am.dev == bm.dev && am.ino == bm.ino)
      | none, none =>
        Except.error { kind := ErrorKind.notFound, rawOsError := none,
                       msg := "Both files do not exist" }
      | _, _ => Except.ok false

/-! ## `rename_file` (src/lib.rs lines 93-109) -/

/-- `libc::EXDEV` on Linux: the cross-filesystem-boundary error code. -/
def EXDEV : Nat := 18

/-- Environment oracle for the three fallible filesystem calls of
`rename_file`: for each of `fs::rename`, `fs::copy` and
`fs::remove_file`, `none` means the call succeeds and `some e` means it
fails with `e`. -/
structure RenameEnv where
  renameErr : Option IOError
  copyErr : Option IOError
  removeErr : Option IOError
deriving DecidableEq

/-- Effect of a successful `fs::rename` (or of the completed
copy-then-delete fallback) on the flat filesystem state. -/
def CfgFS.moveFile (fs : CfgFS) (src dst : Path) : CfgFS :=
  match fs.readFile src with
  | none => fs
  | some c => (fs.removeFile src).writeFile dst c

/-- `rename_file` (src/lib.rs lines 93-109): attempt `fs::rename`; if and
only if it fails with raw OS error `EXDEV`, fall back to `fs::copy`
followed by `fs::remove_file`; every other failure is returned to the
caller via `Except.error` (the Rust function returns
`Result<(), io::Error>`; it never panics). -/
def rename_file (env : RenameEnv) (fs : CfgFS) (src dst : Path) :
    Except IOError CfgFS :=
  match env.renameErr with
  | none => Except.ok (fs.moveFile src dst)
  | some e =>
    if e.rawOsError = some EXDEV then
      match env.copyErr with
      | some e2 => Except.error e2
      | none =>
        match fs.readFile src with
        | none =>
          Except.error { kind := ErrorKind.notFound, rawOsError := none,
                         msg := "Failed to copy" }
        | some c =>
          match env.removeErr with
          | some e3 => Except.error e3
          | none => Except.ok ((fs.writeFile dst c).removeFile src)
    else Except.error e

/-! ## `backup` (src/lib.rs lines 133-154) -/

/-- `Path::file_name` on the component-list model: the last component,
unless the path is empty (the root `/`) or ends in the parent-directory
component `..`. -/
def file_name (p : Path) : Option String :=
  match p.getLast? with
  | none => none
  | some c => if c = ".." then none else some c

/-- Decimal representation of a natural number, the output of Rust
integer formatting (`format!` with a `usize`): the base-10 digits, most
significant first, through `Nat.digitChar`. -/
def natToString (n : Nat) : String :=
  if n = 0 then "0" else String.mk ((Nat.digits 10 n).reverse.map Nat.digitChar)

/-- The extension tried at retry count `n`: `bak` first, then `bak.1`,
`bak.2`, ... (src/lib.rs lines 138-142). -/
def bakExt (n : Nat) : String :=
  if n = 0 then "bak" else "bak." ++ natToString n

/-- The candidate backup file name at retry count `n`:
`<filename>.<extension>` (src/lib.rs lines 143-145). -/
def bakName (filename : String) (n : Nat) : String :=
  filename ++ "." ++ bakExt n

/-- The candidate backup path at retry count `n`:
`path.with_file_name(backup_filename)` (src/lib.rs line 146). -/
def bakPath (p : Path) (filename : String) (n : Nat) : Path :=
  p.dropLast ++ [bakName filename n]

/-- Fuel that always suffices for the retry loop of `backup`: the loop
needs at most one more probe than there are existing paths, because the
candidate names are pairwise distinct (proved below). -/
def bakBound (fs : CfgFS) : Nat :=
  fs.files.length + fs.dirs.length + 1

/-- The retry loop of `backup` (src/lib.rs lines 137-150) stripped of the
final copy: starting at retry count `n`, return the first retry count
whose candidate backup path does not exist.  The loop in the source is
unbounded; `fuel` makes the embedding total, and `bakBound` is proved
sufficient below, so the fuel-exhausted branch is never taken. -/
def firstFreeAux (fs : CfgFS) (p : Path) (filename : String) : Nat → Nat → Nat
  | 0, n => n
  | fuel + 1, n =>
    if fs.pathExists (bakPath p filename n) then firstFreeAux fs p filename fuel (n + 1)
    else n

/-- The retry count at which the `backup` loop stops probing. -/
def firstFree (fs : CfgFS) (p : Path) (filename : String) : Nat :=
  firstFreeAux fs p filename (bakBound fs) 0

/-- `backup` (src/lib.rs lines 133-154): reject paths without a file
name with an `InvalidInput` error; otherwise copy the file to the first
free candidate backup path.  `fs::copy` of a source that is not a
readable regular file fails, and the `?` returns that error. -/
def backup (fs : CfgFS) (p : Path) : Except IOError CfgFS :=
  match file_name p with
  | none =>
    Except.error { kind := ErrorKind.invalidInput, rawOsError := none,
                   msg := "Invalid path" }
  | some filename =>
    match fs.readFile p with
    | none =>
      Except.error { kind := ErrorKind.notFound, rawOsError := none,
                     msg := "Failed to copy" }
    | some content =>
      Except.ok (fs.writeFile (bakPath p filename (firstFree fs p filename)) content)

/-! ## `almost_eq` (src/lib.rs lines 86-90)

The Rust function is generic over `num_traits::Float`, implemented by the
IEEE types `f32`/`f64`.  The embedding `Fl` models an IEEE float as
`nan`, the two infinities, or an exact finite value (finite arithmetic is
exact rational arithmetic and the two signed zeros are identified; the
claims about `almost_eq` are decided far from any rounding boundary, and
the special-value behavior of subtraction, division and comparison — in
particular `0/0 = NaN` and `NaN <= x` being false — is what settles
them). -/

/-- An IEEE floating-point value: `NaN`, `±∞`, or a finite value. -/
inductive Fl where
  | nan
  | inf
  | ninf
  | val (q : ℚ)
deriving DecidableEq

/-- IEEE `is_nan`. -/
def Fl.isNaN : Fl → Bool
  | Fl.nan => true
  | _ => false

/-- IEEE `<=`: false whenever either operand is NaN. -/
def Fl.le : Fl → Fl → Bool
  | Fl.nan, _ => false
  | _, Fl.nan => false
  | Fl.ninf, _ => true
  | _, Fl.ninf => false
  | _, Fl.inf => true
  | Fl.inf, _ => false
  | Fl.val a, Fl.val b => a ≤ b

/-- `Float::min`: if one operand is NaN, the other is returned. -/
def Fl.min (a b : Fl) : Fl :=
  if a.isNaN then b else if b.isNaN then a else if a.le b then a else b

/-- `Float::max`: if one operand is NaN, the other is returned. -/
def Fl.max (a b : Fl) : Fl :=
  if a.isNaN then b else if b.isNaN then a else if a.le b then b else a

/-- IEEE subtraction on the model: `∞ - ∞ = NaN`; finite subtraction is
exact. -/
def Fl.sub : Fl → Fl → Fl
  | Fl.nan, _ => Fl.nan
  | _, Fl.nan => Fl.nan
  | Fl.inf, Fl.inf => Fl.nan
  | Fl.inf, _ => Fl.inf
  | Fl.ninf, Fl.ninf => Fl.nan
  | Fl.ninf, _ => Fl.ninf
  | Fl.val _, Fl.inf => Fl.ninf
  | Fl.val _, Fl.ninf => Fl.inf
  | Fl.val a, Fl.val b => Fl.val (a - b)

/-- IEEE division on the model: `0/0 = NaN`, `x/0 = ±∞` for `x ≠ 0`,
`∞/∞ = NaN`, finite/`±∞` `= 0`; finite division is exact. -/
def Fl.div : Fl → Fl → Fl
  | Fl.nan, _ => Fl.nan
  | _, Fl.nan => Fl.nan
  | Fl.inf, Fl.inf => Fl.nan
  | Fl.inf, Fl.ninf => Fl.nan
  | Fl.ninf, Fl.inf => Fl.nan
  | Fl.ninf, Fl.ninf => Fl.nan
  | Fl.inf, Fl.val b => if b < 0 then Fl.ninf else Fl.inf
  | Fl.ninf, Fl.val b => if b < 0 then Fl.inf else Fl.ninf
  | Fl.val _, Fl.inf => Fl.val 0
  | Fl.val _, Fl.ninf => Fl.val 0
  | Fl.val a, Fl.val b =>
    if b = 0 then
      if a = 0 then Fl.nan else if a < 0 then Fl.ninf else Fl.inf
    else Fl.val (a / b)

/-- `almost_eq` (src/lib.rs lines 86-90): relative-tolerance comparison
`((max - min) / max) <= relative_tolerance`. -/
def almost_eq (a b relative_tolerance : Fl) : Bool :=
  let mn := a.min b
  let mx := a.max b
  ((mx.sub mn).div mx).le relative_tolerance

/-! ## Concrete instances used by witnesses -/

/-- A concrete caller configuration type for witnesses: serializes to
the fixed text `x`, and deserializes exactly that text back to the
default value. -/
def natSE : SE Nat where
  default := 0
  serialize := fun _ => some "x"
  deserialize := fun s => if s = "x" then some 0 else none

/-- A concrete caller configuration type whose serializer always fails,
for the fatal-serialization witness. -/
def badSE : SE Nat where
  default := 0
  serialize := fun _ => none
  deserialize := fun _ => none

/-- A concrete project for witnesses. -/
def proj0 : Project where
  project_name := "proj"
  config_dir := ["cfg", "proj"]

/-- The empty filesystem. -/
def fs0 : CfgFS where
  dirs := []
  files := []

/-- A `NotFound` error value. -/
def nfErr : IOError where
  kind := ErrorKind.notFound
  rawOsError := none
  msg := "No such file or directory"

/-- A permission-denied error value (raw OS error `EACCES = 13`). -/
def accessErr : IOError where
  kind := ErrorKind.other
  rawOsError := some 13
  msg := "Permission denied"

/-- A cross-device-link error value (raw OS error `EXDEV = 18`). -/
def exdevErr : IOError where
  kind := ErrorKind.other
  rawOsError := some 18
  msg := "Invalid cross-device link"

/-- A concrete metadata oracle: `c` and `c2` resolve to the same
device/inode pair, `d` to another inode, everything else is absent. -/
def mfs0 : MetaFS := fun p =>
  if p = ["c"] then Except.ok ⟨1, 7⟩
  else if p = ["c2"] then Except.ok ⟨1, 7⟩
  else if p = ["d"] then Except.ok ⟨1, 8⟩
  else Except.error nfErr

/-- A filesystem holding one file `a` with content `data`. -/
def rfs0 : CfgFS where
  dirs := []
  files := [(["a"], "data")]

/-! # Theorems -/

/-! ## Walker lemmas -/

theorem dirFilesList_append (p : Path) (es1 es2 : List FsTree) :
    dirFilesList p (es1 ++ es2) = dirFilesList p es1 ++ dirFilesList p es2 := by
  induction es1 with
  | nil => simp [dirFilesList]
  | cons e es ih => cases e <;> simp [dirFilesList, ih]

theorem stackFiles_append (s1 s2 : List (Path × FsTree)) :
    stackFiles (s1 ++ s2) = stackFiles s1 ++ stackFiles s2 := by
  simp [stackFiles]

theorem stackFiles_reverse_perm (s : List (Path × FsTree)) :
    stackFiles s.reverse ~ stackFiles s :=
  (List.reverse_perm s).flatMap_right _

theorem entries_perm {R : Type} (f : Path → R) (p : Path) (entries : List FsTree) :
    resultsOf f p entries ++ (stackFiles (pushedOf p entries)).map f
      ~ (dirFilesList p entries).map f := by
  induction entries with
  | nil => simp [resultsOf, pushedOf, stackFiles, dirFilesList]
  | cons e es ih =>
    cases e with
    | file m =>
      simp only [resultsOf, pushedOf, List.filterMap_cons, dirFilesList,
        List.map_cons, List.cons_append] at *
      exact ih.cons _
    | dir m ms =>
      simp only [resultsOf, pushedOf, List.filterMap_cons, dirFilesList,
        stackFiles, List.flatMap_cons, dirFiles, List.map_append] at *
      calc resultsOf f p es
            ++ ((dirFilesList (p ++ [m]) ms).map f
                ++ ((pushedOf p es).flatMap fun x => dirFiles x.1 x.2).map f)
          ~ (dirFilesList (p ++ [m]) ms).map f
            ++ (resultsOf f p es
                ++ ((pushedOf p es).flatMap fun x => dirFiles x.1 x.2).map f) := by
            rw [← List.append_assoc, ← List.append_assoc]
            exact List.perm_append_comm.append_right _
        _ ~ (dirFilesList (p ++ [m]) ms).map f ++ (dirFilesList p es).map f :=
            ih.append_left _
    | baddir m =>
      simp only [resultsOf, pushedOf, List.filterMap_cons, dirFilesList,
        stackFiles, List.flatMap_cons, dirFiles, List.nil_append] at *
      exact ih
    | badentry =>
      simp only [resultsOf, pushedOf, List.filterMap_cons, dirFilesList] at *
      exact ih

theorem walkLoop_perm {R : Type} (f : Path → R) (stack : List (Path × FsTree)) :
    walkLoop f stack ~ (stackFiles stack).map f := by
  induction stack using walkLoop.induct f with
  | case1 =>
    simp [walkLoop, stackFiles]
  | case2 q m rest ih =>
    rw [walkLoop]
    simpa [stackFiles, dirFiles] using ih
  | case3 q m rest ih =>
    rw [walkLoop]
    simpa [stackFiles, dirFiles] using ih
  | case4 q rest ih =>
    rw [walkLoop]
    simpa [stackFiles, dirFiles] using ih
  | case5 p n entries rest ih =>
    rw [walkLoop]
    calc resultsOf f p entries ++ walkLoop f ((pushedOf p entries).reverse ++ rest)
        ~ resultsOf f p entries
            ++ (stackFiles ((pushedOf p entries).reverse ++ rest)).map f :=
          ih.append_left _
      _ ~ (resultsOf f p entries ++ (stackFiles (pushedOf p entries)).map f)
            ++ (stackFiles rest).map f := by
          rw [stackFiles_append, List.map_append, ← List.append_assoc]
          exact ((((stackFiles_reverse_perm _).map f).append_left _).append_right _)
      _ ~ (dirFilesList p entries).map f ++ (stackFiles rest).map f :=
          (entries_perm f p entries).append_right _
      _ = (stackFiles ((p, FsTree.dir n entries) :: rest)).map f := by
          simp [stackFiles, dirFiles]

theorem walk_dir_perm {R : Type} (f : Path → R) (p : Path) (t : FsTree) :
    walk_dir f p t ~ (dirFiles p t).map f := by
  simpa [walk_dir, stackFiles] using walkLoop_perm f [(p, t)]

/-- C3: `walk_dir` never surfaces an error to the caller.  (a) A root
that cannot be listed (nonexistent, a non-directory, or unlistable)
yields the empty result sequence rather than a failure.  (b) An
unreadable individual entry is skipped while the rest of that
directory's entries are still processed: the output is exactly the one
obtained with the entry absent.  (c) A subdirectory whose listing fails
is skipped as a whole: up to the unspecified ordering, the output is the
one obtained with that subtree absent.  In all cases a (possibly empty
or partial) result sequence is returned: `walk_dir` is a total function
into `List R`. -/
theorem walk_dir_never_errors (R : Type) :
    (∀ (f : Path → R) (p : Path) (n : String), walk_dir f p (FsTree.baddir n) = [])
    ∧ (∀ (f : Path → R) (p : Path) (n : String) (pre post : List FsTree),
        walk_dir f p (FsTree.dir n (pre ++ FsTree.badentry :: post))
          = walk_dir f p (FsTree.dir n (pre ++ post)))
    ∧ (∀ (f : Path → R) (p : Path) (n m : String) (pre post : List FsTree),
        walk_dir f p (FsTree.dir n (pre ++ FsTree.baddir m :: post))
          ~ walk_dir f p (FsTree.dir n (pre ++ post))) := by
  refine ⟨fun f p n => ?_, fun f p n pre post => ?_, fun f p n m pre post => ?_⟩
  · simp [walk_dir, walkLoop]
  · rw [walk_dir, walk_dir, walkLoop, walkLoop]
    simp [resultsOf, pushedOf, List.filterMap_append, List.filterMap_cons]
  · refine (walk_dir_perm f p _).trans
      (List.Perm.trans ?_ (walk_dir_perm f p _).symm)
    have h : dirFiles p (FsTree.dir n (pre ++ FsTree.baddir m :: post))
        = dirFiles p (FsTree.dir n (pre ++ post)) := by
      simp [dirFiles, dirFilesList_append, dirFilesList]
    rw [h]

/-- C4: over a tree with no listing errors, `walk_dir` applies the
transform to every reachable regular file exactly once and never
includes a directory among the results: its output is a permutation of
the transform mapped over the list of reachable regular-file paths. -/
theorem walk_dir_visits_every_file {R : Type} (f : Path → R) (p : Path) (t : FsTree)
    (_ : t.noErrors = true) :
    walk_dir f p t ~ (dirFiles p t).map f :=
  walk_dir_perm f p t

/-- Witness for C4 at a concrete two-level tree. -/
theorem walk_dir_visits_every_file_witness :
    (FsTree.dir "root" [FsTree.file "a", FsTree.dir "sub" [FsTree.file "b"]]).noErrors = true
    ∧ walk_dir (fun q => q) []
        (FsTree.dir "root" [FsTree.file "a", FsTree.dir "sub" [FsTree.file "b"]])
      ~ (dirFiles [] (FsTree.dir "root"
          [FsTree.file "a", FsTree.dir "sub" [FsTree.file "b"]])).map (fun q => q) :=
  ⟨by simp [FsTree.noErrors, noErrorsList],
   walk_dir_visits_every_file _ _ _ (by simp [FsTree.noErrors, noErrorsList])⟩

/-! ## Configuration loader lemmas -/

theorem createDirAll_files (fs : CfgFS) (d : Path) :
    (fs.createDirAll d).files = fs.files := by
  rw [CfgFS.createDirAll]
  split <;> rfl

theorem createDirAll_readFile (fs : CfgFS) (d p : Path) :
    (fs.createDirAll d).readFile p = fs.readFile p := by
  rw [CfgFS.readFile, CfgFS.readFile, createDirAll_files]

theorem createDirAll_dirExists_self (fs : CfgFS) (d : Path) :
    (fs.createDirAll d).dirExists d = true := by
  rw [CfgFS.createDirAll, CfgFS.dirExists]
  split
  next h => exact h
  next => simp [memPath]

theorem createDirAll_pathExists (fs : CfgFS) (d p : Path) (h : d ≠ p) :
    (fs.createDirAll d).pathExists p = fs.pathExists p := by
  rw [CfgFS.pathExists, CfgFS.pathExists, CfgFS.fileExists, CfgFS.fileExists,
    createDirAll_readFile]
  rw [CfgFS.dirExists, CfgFS.dirExists, CfgFS.createDirAll]
  split
  · rfl
  · simp [memPath, h]

theorem createDirAll_idem (fs : CfgFS) (d : Path) :
    (fs.createDirAll d).createDirAll d = fs.createDirAll d := by
  have h : memPath (fs.createDirAll d).dirs d = true := createDirAll_dirExists_self fs d
  rw [CfgFS.createDirAll, h]
  simp

theorem writeFile_readFile_self (fs : CfgFS) (p : Path) (c : String) :
    (fs.writeFile p c).readFile p = some c := by
  simp [CfgFS.writeFile, CfgFS.readFile, lookupFile]

theorem writeFile_readFile_ne (fs : CfgFS) (p q : Path) (c : String) (h : p ≠ q) :
    (fs.writeFile p c).readFile q = fs.readFile q := by
  simp [CfgFS.writeFile, CfgFS.readFile, lookupFile, h]

theorem config_dir_ne_configPath (proj : Project) :
    proj.config_dir ≠ proj.configPath := by
  intro h
  have hl := congrArg List.length h
  simp [Project.configPath] at hl

/-- C1: with a default-constructible, serializable configuration type
whose serialization of the default deserializes back to the default,
a first call of `Project::config` on a state where neither the
configuration directory nor `config.toml` exists (and where neither
filesystem call fails) creates the directory, writes `config.toml` with
the serialized default, and returns the default value. -/
theorem config_first_load {α : Type} (se : SE α) (proj : Project) (fs : CfgFS)
    (s : String)
    (hser : se.serialize se.default = some s)
    (hde : se.deserialize s = some se.default)
    (_hdir : fs.dirExists proj.config_dir = false)
    (hfile : fs.pathExists proj.configPath = false) :
    Project.config se ⟨false, false⟩ proj fs
      = Except.ok (se.default,
          (fs.createDirAll proj.config_dir).writeFile proj.configPath s)
    ∧ ((fs.createDirAll proj.config_dir).writeFile proj.configPath s).dirExists
        proj.config_dir = true
    ∧ ((fs.createDirAll proj.config_dir).writeFile proj.configPath s).readFile
        proj.configPath = some s := by
  have h1 : (fs.createDirAll proj.config_dir).pathExists proj.configPath = false := by
    rw [createDirAll_pathExists fs _ _ (config_dir_ne_configPath proj)]
    exact hfile
  refine ⟨?_, ?_, writeFile_readFile_self _ _ _⟩
  · simp [Project.config, h1, hser, hde, writeFile_readFile_self]
  · simp only [CfgFS.dirExists, CfgFS.writeFile]
    exact createDirAll_dirExists_self fs proj.config_dir

/-- Witness for C1 at a concrete configuration type, project and empty
filesystem. -/
theorem config_first_load_witness :
    natSE.serialize natSE.default = some "x"
    ∧ natSE.deserialize "x" = some natSE.default
    ∧ fs0.dirExists proj0.config_dir = false
    ∧ fs0.pathExists proj0.configPath = false
    ∧ (Project.config natSE ⟨false, false⟩ proj0 fs0
        = Except.ok (natSE.default,
            (fs0.createDirAll proj0.config_dir).writeFile proj0.configPath "x")
      ∧ ((fs0.createDirAll proj0.config_dir).writeFile proj0.configPath "x").dirExists
          proj0.config_dir = true
      ∧ ((fs0.createDirAll proj0.config_dir).writeFile proj0.configPath "x").readFile
          proj0.configPath = some "x") :=
  ⟨rfl, by decide, rfl, rfl,
   config_first_load natSE proj0 fs0 "x" rfl (by decide) rfl rfl⟩

/-- When `config.toml` already holds content `c` and directory creation
succeeds, `Project::config` skips the default-writing step entirely: it
deserializes `c`, and the only state change is the idempotent directory
creation. -/
theorem config_of_file_exists {α : Type} (se : SE α) (env : CfgEnv) (proj : Project)
    (fs : CfgFS) (c : String)
    (hcd : env.createDirFails = false)
    (hc : fs.readFile proj.configPath = some c) :
    Project.config se env proj fs =
      match se.deserialize c with
      | none => Except.error "Failed to deserialize config"
      | some v => Except.ok (v, fs.createDirAll proj.config_dir) := by
  have hc1 : (fs.createDirAll proj.config_dir).readFile proj.configPath = some c := by
    rw [createDirAll_readFile]; exact hc
  have hpe : (fs.createDirAll proj.config_dir).pathExists proj.configPath = true := by
    rw [CfgFS.pathExists, CfgFS.fileExists, hc1]; rfl
  rw [Project.config]
  simp [hcd, hpe, hc1]

/-- C2: when `config.toml` already exists, `Project::config` never
modifies the file contents (`fs1.files = fs.files`), and a second call
with no intervening edits returns the same value and the same state,
leaving every file byte-identical. -/
theorem config_second_load {α : Type} (se : SE α) (env : CfgEnv) (proj : Project)
    (fs : CfgFS) (v : α) (fs1 : CfgFS)
    (hex : fs.fileExists proj.configPath = true)
    (h1 : Project.config se env proj fs = Except.ok (v, fs1)) :
    fs1.files = fs.files ∧ Project.config se env proj fs1 = Except.ok (v, fs1) := by
  rcases hce : env.createDirFails with _ | _
  case true =>
    rw [Project.config] at h1
    simp [hce] at h1
  obtain ⟨c, hc⟩ : ∃ c, fs.readFile proj.configPath = some c := by
    rcases h : fs.readFile proj.configPath with _ | c
    · rw [CfgFS.fileExists, h] at hex
      simp at hex
    · exact ⟨c, rfl⟩
  rw [config_of_file_exists se env proj fs c hce hc] at h1
  rcases hd : se.deserialize c with _ | v'
  · rw [hd] at h1
    simp at h1
  · rw [hd] at h1
    simp only [Except.ok.injEq, Prod.mk.injEq] at h1
    obtain ⟨hv, hfs⟩ := h1
    subst hv
    subst hfs
    refine ⟨createDirAll_files fs proj.config_dir, ?_⟩
    have hc2 : (fs.createDirAll proj.config_dir).readFile proj.configPath = some c := by
      rw [createDirAll_readFile]; exact hc
    rw [config_of_file_exists se env proj _ c hce hc2, hd, createDirAll_idem]

/-- Witness for C2: a filesystem already holding `config.toml` with
content `x`. -/
theorem config_second_load_witness :
    (CfgFS.fileExists ⟨[], [(["cfg", "proj", "config.toml"], "x")]⟩
        proj0.configPath = true)
    ∧ (Project.config natSE ⟨false, false⟩ proj0
          ⟨[], [(["cfg", "proj", "config.toml"], "x")]⟩
        = Except.ok (0, ⟨[["cfg", "proj"]], [(["cfg", "proj", "config.toml"], "x")]⟩))
    ∧ ((⟨[["cfg", "proj"]], [(["cfg", "proj", "config.toml"], "x")]⟩ : CfgFS).files
        = (⟨[], [(["cfg", "proj", "config.toml"], "x")]⟩ : CfgFS).files
      ∧ Project.config natSE ⟨false, false⟩ proj0
            ⟨[["cfg", "proj"]], [(["cfg", "proj", "config.toml"], "x")]⟩
          = Except.ok (0, ⟨[["cfg", "proj"]], [(["cfg", "proj", "config.toml"], "x")]⟩)) :=
  ⟨by decide, rfl,
   config_second_load natSE ⟨false, false⟩ proj0
     ⟨[], [(["cfg", "proj", "config.toml"], "x")]⟩ 0
     ⟨[["cfg", "proj"]], [(["cfg", "proj", "config.toml"], "x")]⟩
     (by decide) rfl⟩

/-- C5: every failure in establishing a valid configuration aborts the
process (modeled by `Except.error` carrying the panic message) rather
than returning an error value: unavailability of the platform
configuration root in `Project::new`, configuration-directory creation
failure, default-config serialization failure, default-config write
failure, and config-file deserialization failure in `Project::config`. -/
theorem config_failures_are_fatal :
    (∀ name : String,
        Project.new none name = Except.error "Failed to get config directory")
    ∧ (∀ {α : Type} (se : SE α) (env : CfgEnv) (proj : Project) (fs : CfgFS),
        env.createDirFails = true →
          Project.config se env proj fs
            = Except.error "Failed to create config directory")
    ∧ (∀ {α : Type} (se : SE α) (proj : Project) (fs : CfgFS) (wf : Bool),
        se.serialize se.default = none →
        fs.pathExists proj.configPath = false →
          Project.config se ⟨false, wf⟩ proj fs
            = Except.error "Failed to serialize default config")
    ∧ (∀ {α : Type} (se : SE α) (proj : Project) (fs : CfgFS) (s : String),
        se.serialize se.default = some s →
        fs.pathExists proj.configPath = false →
          Project.config se ⟨false, true⟩ proj fs
            = Except.error "Failed to write default config")
    ∧ (∀ {α : Type} (se : SE α) (env : CfgEnv) (proj : Project) (fs : CfgFS)
          (c : String),
        env.createDirFails = false →
        fs.readFile proj.configPath = some c →
        se.deserialize c = none →
          Project.config se env proj fs
            = Except.error "Failed to deserialize config") := by
  refine ⟨fun name => rfl, ?_, ?_, ?_, ?_⟩
  · intro α se env proj fs h
    rw [Project.config]
    simp [h]
  · intro α se proj fs wf hser hpe
    have h1 : (fs.createDirAll proj.config_dir).pathExists proj.configPath = false := by
      rw [createDirAll_pathExists fs _ _ (config_dir_ne_configPath proj)]
      exact hpe
    rw [Project.config]
    simp [h1, hser]
  · intro α se proj fs s hser hpe
    have h1 : (fs.createDirAll proj.config_dir).pathExists proj.configPath = false := by
      rw [createDirAll_pathExists fs _ _ (config_dir_ne_configPath proj)]
      exact hpe
    rw [Project.config]
    simp [h1, hser]
  · intro α se env proj fs c hcd hc hd
    rw [config_of_file_exists se env proj fs c hcd hc, hd]

/-- Witness for C5: each fatal path exercised at a concrete input. -/
theorem config_failures_are_fatal_witness :
    (Project.new none "proj" = Except.error "Failed to get config directory")
    ∧ (Project.config natSE ⟨true, false⟩ proj0 fs0
        = Except.error "Failed to create config directory")
    ∧ (Project.config badSE ⟨false, false⟩ proj0 fs0
        = Except.error "Failed to serialize default config")
    ∧ (Project.config natSE ⟨false, true⟩ proj0 fs0
        = Except.error "Failed to write default config")
    ∧ (Project.config natSE ⟨false, false⟩ proj0
          ⟨[], [(["cfg", "proj", "config.toml"], "bad")]⟩
        = Except.error "Failed to deserialize config") :=
  ⟨config_failures_are_fatal.1 "proj",
   config_failures_are_fatal.2.1 natSE ⟨true, false⟩ proj0 fs0 rfl,
   config_failures_are_fatal.2.2.1 badSE proj0 fs0 false rfl rfl,
   config_failures_are_fatal.2.2.2.1 natSE proj0 fs0 "x" rfl rfl,
   config_failures_are_fatal.2.2.2.2 natSE ⟨false, false⟩ proj0
     ⟨[], [(["cfg", "proj", "config.toml"], "bad")]⟩ "bad" rfl (by decide) (by decide)⟩

/-! ## `eq_files` -/

/-- C6: `eq_files` returns `Ok(true)` exactly when both paths exist and
resolve to the same device/inode pair; a `NotFound` error when neither
path exists (both metadata calls report not-found); and `Ok(false)` when
exactly one of the two paths exists. -/
theorem eq_files_spec (fs : MetaFS) (a b : Path) :
    (eq_files fs a b = Except.ok true ↔
      ∃ ma mb, fs a = Except.ok ma ∧ fs b = Except.ok mb
        ∧ ma.dev = mb.dev ∧ ma.ino = mb.ino)
    ∧ (∀ ea eb, fs a = Except.error ea → ea.kind = ErrorKind.notFound →
        fs b = Except.error eb → eb.kind = ErrorKind.notFound →
        ∃ e, eq_files fs a b = Except.error e ∧ e.kind = ErrorKind.notFound)
    ∧ (∀ ma eb, fs a = Except.ok ma → fs b = Except.error eb →
        eb.kind = ErrorKind.notFound → eq_files fs a b = Except.ok false)
    ∧ (∀ ea mb, fs a = Except.error ea → ea.kind = ErrorKind.notFound →
        fs b = Except.ok mb → eq_files fs a b = Except.ok false) := by
  refine ⟨?_, ?_, ?_, ?_⟩
  · constructor
    · intro h
      rw [eq_files, metadata_if_exists, metadata_if_exists] at h
      rcases ha : fs a with ea | ma <;> rw [ha] at h <;> simp at h
      · rcases hka : ea.kind <;> rw [hka] at h <;> simp at h
        rcases hb : fs b with eb | mb <;> rw [hb] at h <;> simp at h
        rcases hkb : eb.kind <;> rw [hkb] at h <;> simp at h
      · rcases hb : fs b with eb | mb <;> rw [hb] at h <;> simp at h
        · rcases hkb : eb.kind <;> rw [hkb] at h <;> simp at h
        · exact ⟨ma, mb, rfl, rfl, h.1, h.2⟩
    · rintro ⟨ma, mb, hma, hmb, hdev, hino⟩
      rw [eq_files, metadata_if_exists, metadata_if_exists, hma, hmb]
      simp [hdev, hino]
  · intro ea eb hea hka heb hkb
    refine ⟨⟨ErrorKind.notFound, none, "Both files do not exist"⟩, ?_, rfl⟩
    rw [eq_files, metadata_if_exists, metadata_if_exists, hea, heb]
    simp [hka, hkb]
  · intro ma eb hma heb hkb
    rw [eq_files, metadata_if_exists, metadata_if_exists, hma, heb]
    simp [hkb]
  · intro ea mb hea hka hmb
    rw [eq_files, metadata_if_exists, metadata_if_exists, hea, hmb]
    simp [hka]

/-- Witness for C6: a filesystem where path `a` exists (device 1, inode
7), path `c` exists with the same identity, path `d` exists with another
inode, and everything else is not found. -/
theorem eq_files_spec_witness :
    (mfs0 ["a"] = Except.error nfErr) ∧ nfErr.kind = ErrorKind.notFound
    ∧ (mfs0 ["b"] = Except.error nfErr)
    ∧ (∃ e, eq_files mfs0 ["a"] ["b"] = Except.error e
        ∧ e.kind = ErrorKind.notFound)
    ∧ (eq_files mfs0 ["c"] ["c2"] = Except.ok true)
    ∧ (eq_files mfs0 ["c"] ["a"] = Except.ok false) :=
  ⟨rfl, rfl, rfl,
   (eq_files_spec mfs0 ["a"] ["b"]).2.1 nfErr nfErr rfl rfl rfl rfl,
   (eq_files_spec mfs0 ["c"] ["c2"]).1.mpr ⟨⟨1, 7⟩, ⟨1, 7⟩, rfl, rfl, rfl, rfl⟩,
   (eq_files_spec mfs0 ["c"] ["a"]).2.2.1 ⟨1, 7⟩ nfErr rfl rfl rfl⟩

/-! ## `rename_file` -/

/-- C8: `rename_file` first attempts the plain rename; exactly on an
`EXDEV` failure it falls back to copy-then-delete; any other rename
failure, and any failure during the copy or the delete, is returned to
the caller as an `Except.error` value (the function has no panic
path). -/
theorem rename_file_spec :
    (∀ (env : RenameEnv) (fs : CfgFS) (src dst : Path), env.renameErr = none →
        rename_file env fs src dst = Except.ok (fs.moveFile src dst))
    ∧ (∀ (env : RenameEnv) (fs : CfgFS) (src dst : Path) (e : IOError),
        env.renameErr = some e → e.rawOsError ≠ some EXDEV →
        rename_file env fs src dst = Except.error e)
    ∧ (∀ (env : RenameEnv) (fs : CfgFS) (src dst : Path) (e e2 : IOError),
        env.renameErr = some e → e.rawOsError = some EXDEV →
        env.copyErr = some e2 →
        rename_file env fs src dst = Except.error e2)
    ∧ (∀ (env : RenameEnv) (fs : CfgFS) (src dst : Path) (e e3 : IOError)
          (c : String),
        env.renameErr = some e → e.rawOsError = some EXDEV →
        env.copyErr = none → fs.readFile src = some c →
        env.removeErr = some e3 →
        rename_file env fs src dst = Except.error e3)
    ∧ (∀ (env : RenameEnv) (fs : CfgFS) (src dst : Path) (e : IOError)
          (c : String),
        env.renameErr = some e → e.rawOsError = some EXDEV →
        env.copyErr = none → fs.readFile src = some c →
        env.removeErr = none →
        rename_file env fs src dst
          = Except.ok ((fs.writeFile dst c).removeFile src)) := by
  refine ⟨?_, ?_, ?_, ?_, ?_⟩
  · intro env fs src dst h
    rw [rename_file, h]
  · intro env fs src dst e h1 h2
    rw [rename_file, h1]
    simp [h2]
  · intro env fs src dst e e2 h1 h2 h3
    rw [rename_file, h1]
    simp [h2, h3]
  · intro env fs src dst e e3 c h1 h2 h3 h4 h5
    rw [rename_file, h1]
    simp [h2, h3, h4, h5]
  · intro env fs src dst e c h1 h2 h3 h4 h5
    rw [rename_file, h1]
    simp [h2, h3, h4, h5]

/-- Witness for C8: a successful rename, a non-`EXDEV` failure, and a
completed `EXDEV` fallback, at a file `a` with content `data`. -/
theorem rename_file_spec_witness :
    ((⟨none, none, none⟩ : RenameEnv).renameErr = none
      ∧ rename_file ⟨none, none, none⟩ rfs0 ["a"] ["b"]
          = Except.ok (rfs0.moveFile ["a"] ["b"]))
    ∧ ((⟨some accessErr, none, none⟩ : RenameEnv).renameErr = some accessErr
      ∧ accessErr.rawOsError ≠ some EXDEV
      ∧ rename_file ⟨some accessErr, none, none⟩ rfs0 ["a"] ["b"]
          = Except.error accessErr)
    ∧ ((⟨some exdevErr, none, none⟩ : RenameEnv).renameErr = some exdevErr
      ∧ exdevErr.rawOsError = some EXDEV
      ∧ rfs0.readFile ["a"] = some "data"
      ∧ rename_file ⟨some exdevErr, none, none⟩ rfs0 ["a"] ["b"]
          = Except.ok ((rfs0.writeFile ["b"] "data").removeFile ["a"])) :=
  ⟨⟨rfl, rename_file_spec.1 ⟨none, none, none⟩ rfs0 ["a"] ["b"] rfl⟩,
   ⟨rfl, by decide,
    rename_file_spec.2.1 ⟨some accessErr, none, none⟩ rfs0 ["a"] ["b"] accessErr
      rfl (by decide)⟩,
   ⟨rfl, rfl, rfl,
    rename_file_spec.2.2.2.2 ⟨some exdevErr, none, none⟩ rfs0 ["a"] ["b"] exdevErr
      "data" rfl rfl rfl rfl rfl⟩⟩

/-! ## `backup` lemmas: the candidate names are pairwise distinct -/

theorem digitChar_inj_lt :
    ∀ a < 10, ∀ b < 10, Nat.digitChar a = Nat.digitChar b → a = b := by decide

theorem map_digitChar_inj :
    ∀ l1 l2 : List Nat, (∀ d ∈ l1, d < 10) → (∀ d ∈ l2, d < 10) →
      l1.map Nat.digitChar = l2.map Nat.digitChar → l1 = l2 := by
  intro l1
  induction l1 with
  | nil =>
    intro l2 _ _ h
    cases l2 <;> simp_all
  | cons d l ih =>
    intro l2 h1 h2 h
    cases l2 with
    | nil => simp at h
    | cons d2 l2 =>
      simp only [List.map_cons, List.cons.injEq] at h
      have hd : d = d2 :=
        digitChar_inj_lt d (h1 d (by simp)) d2 (h2 d2 (by simp)) h.1
      subst hd
      rw [ih l2 (fun x hx => h1 x (by simp [hx])) (fun x hx => h2 x (by simp [hx])) h.2]

theorem natToString_inj (m n : Nat) (h : natToString m = natToString n) : m = n := by
  have key : ∀ a b : Nat, a ≠ 0 → natToString a = natToString b → b = 0 → False := by
    intro a b ha hab hb
    subst hb
    rw [natToString, natToString, if_neg ha, if_pos rfl] at hab
    have hd : (Nat.digits 10 a).reverse.map Nat.digitChar = [Nat.digitChar 0] :=
      congrArg String.data hab
    have hrev : (Nat.digits 10 a).reverse = [0] :=
      map_digitChar_inj _ [0]
        (fun d hdm => Nat.digits_lt_base (by norm_num) (List.mem_reverse.mp hdm))
        (by simp) hd
    have hdig : Nat.digits 10 a = [0] := by
      have := congrArg List.reverse hrev
      simpa using this
    have : a = 0 := by
      have h0 := Nat.ofDigits_digits 10 a
      rw [hdig] at h0
      simpa [Nat.ofDigits] using h0.symm
    exact ha this
  by_cases hm : m = 0 <;> by_cases hn : n = 0
  · rw [hm, hn]
  · exact absurd (key n m hn h.symm hm) (by simp)
  · exact absurd (key m n hm h hn) (by simp)
  · rw [natToString, natToString, if_neg hm, if_neg hn] at h
    have hd : (Nat.digits 10 m).reverse.map Nat.digitChar
        = (Nat.digits 10 n).reverse.map Nat.digitChar := congrArg String.data h
    have hrev : (Nat.digits 10 m).reverse = (Nat.digits 10 n).reverse :=
      map_digitChar_inj _ _
        (fun d hdm => Nat.digits_lt_base (by norm_num) (List.mem_reverse.mp hdm))
        (fun d hdn => Nat.digits_lt_base (by norm_num) (List.mem_reverse.mp hdn)) hd
    have hdig : Nat.digits 10 m = Nat.digits 10 n := by
      have := congrArg List.reverse hrev
      simpa using this
    exact Nat.digits.injective 10 hdig

theorem natToString_data_ne_nil (n : Nat) : (natToString n).data ≠ [] := by
  rw [natToString]
  split
  · simp
  next hn =>
    show (Nat.digits 10 n).reverse.map Nat.digitChar ≠ []
    simp [Nat.digits_ne_nil_iff_ne_zero.mpr hn]

theorem bakExt_inj (m n : Nat) (h : bakExt m = bakExt n) : m = n := by
  rw [bakExt, bakExt] at h
  by_cases hm : m = 0 <;> by_cases hn : n = 0
  · rw [hm, hn]
  · exfalso
    rw [if_pos hm, if_neg hn] at h
    have hlen := congrArg (fun s => s.data.length) h
    have hpos : 0 < (natToString n).data.length :=
      List.length_pos.mpr (natToString_data_ne_nil n)
    simp at hlen
  · exfalso
    rw [if_neg hm, if_pos hn] at h
    have hlen := congrArg (fun s => s.data.length) h
    have hpos : 0 < (natToString m).data.length :=
      List.length_pos.mpr (natToString_data_ne_nil m)
    simp at hlen
  · rw [if_neg hm, if_neg hn] at h
    have hd := congrArg String.data h
    simp only [String.data_append, List.append_cancel_left_eq] at hd
    exact natToString_inj m n (String.ext hd)

theorem bakName_inj (fn : String) (m n : Nat) (h : bakName fn m = bakName fn n) :
    m = n := by
  rw [bakName, bakName] at h
  have hd := congrArg String.data h
  simp only [String.data_append, List.append_assoc, List.append_cancel_left_eq] at hd
  exact bakExt_inj m n (String.ext hd)

theorem bakName_ne (fn : String) (k : Nat) : bakName fn k ≠ fn := by
  intro h
  have hlen := congrArg (fun s => s.data.length) h
  have hpos : 0 < (bakExt k).data.length := by
    rw [bakExt]
    split
    · simp
    · simp [String.data_append]
  simp [bakName] at hlen

theorem bakPath_inj (p : Path) (fn : String) (m n : Nat)
    (h : bakPath p fn m = bakPath p fn n) : m = n := by
  rw [bakPath, bakPath] at h
  simp only [List.append_cancel_left_eq, List.cons.injEq, and_true] at h
  exact bakName_inj fn m n h

theorem bakPath_ne_self (p : Path) (fn : String) (k : Nat)
    (hg : p.getLast? = some fn) : bakPath p fn k ≠ p := by
  obtain ⟨ys, rfl⟩ := List.getLast?_eq_some_iff.mp hg
  intro h
  rw [bakPath, List.dropLast_concat] at h
  simp only [List.append_cancel_left_eq, List.cons.injEq, and_true] at h
  exact bakName_ne fn k h

/-! ## `backup` lemmas: the retry loop finds the first free candidate -/

theorem mem_of_lookupFile_isSome (l : List (Path × String)) (p : Path)
    (h : (lookupFile l p).isSome = true) : p ∈ l.map Prod.fst := by
  induction l with
  | nil => simp [lookupFile] at h
  | cons q qs ih =>
    rw [lookupFile] at h
    by_cases hq : q.1 = p
    · simp [← hq]
    · rw [if_neg hq] at h
      simp [ih h]

theorem mem_of_memPath (l : List Path) (p : Path) (h : memPath l p = true) :
    p ∈ l := by
  induction l with
  | nil => simp [memPath] at h
  | cons q qs ih =>
    rw [memPath] at h
    by_cases hq : q = p
    · simp [← hq]
    · rw [if_neg hq] at h
      simp [ih h]

theorem mem_allPaths_of_pathExists (fs : CfgFS) (q : Path)
    (h : fs.pathExists q = true) : q ∈ fs.files.map Prod.fst ++ fs.dirs := by
  rw [CfgFS.pathExists, Bool.or_eq_true] at h
  rcases h with h | h
  · exact List.mem_append_left _ (mem_of_lookupFile_isSome _ _ h)
  · exact List.mem_append_right _ (mem_of_memPath _ _ h)

theorem exists_free_lt_bound (fs : CfgFS) (p : Path) (fn : String) :
    ∃ k, k < bakBound fs ∧ fs.pathExists (bakPath p fn k) = false := by
  by_contra hcon
  push_neg at hcon
  have hall : ∀ k, k < bakBound fs → fs.pathExists (bakPath p fn k) = true := by
    intro k hk
    have := hcon k hk
    simpa using this
  have hnd : ((List.range (bakBound fs)).map (fun k => bakPath p fn k)).Nodup :=
    (List.nodup_range _).map (fun a b hab => bakPath_inj p fn a b hab)
  have hsub : ((List.range (bakBound fs)).map (fun k => bakPath p fn k))
      ⊆ fs.files.map Prod.fst ++ fs.dirs := by
    intro x hx
    rw [List.mem_map] at hx
    obtain ⟨k, hk, rfl⟩ := hx
    exact mem_allPaths_of_pathExists fs _ (hall k (List.mem_range.mp hk))
  have hlen := (List.subperm_of_subset hnd hsub).length_le
  simp only [List.length_map, List.length_range, List.length_append] at hlen
  rw [bakBound] at hlen
  omega

theorem firstFreeAux_spec (fs : CfgFS) (p : Path) (fn : String) :
    ∀ fuel n : Nat,
      (∃ k, k < fuel ∧ fs.pathExists (bakPath p fn (n + k)) = false) →
      fs.pathExists (bakPath p fn (firstFreeAux fs p fn fuel n)) = false
      ∧ n ≤ firstFreeAux fs p fn fuel n
      ∧ ∀ m, n ≤ m → m < firstFreeAux fs p fn fuel n →
          fs.pathExists (bakPath p fn m) = true := by
  intro fuel
  induction fuel with
  | zero =>
    rintro n ⟨k, hk, -⟩
    omega
  | succ fuel ih =>
    rintro n ⟨k, hk, hfree⟩
    rw [firstFreeAux]
    by_cases hex : fs.pathExists (bakPath p fn n) = true
    · rw [if_pos hex]
      have hk0 : k ≠ 0 := by
        intro h0
        rw [h0, Nat.add_zero] at hfree
        rw [hex] at hfree
        cases hfree
      have hstep := ih (n + 1)
        ⟨k - 1, by omega, by rw [show n + 1 + (k - 1) = n + k by omega]; exact hfree⟩
      refine ⟨hstep.1, by omega, ?_⟩
      intro m hm hlt
      rcases Nat.eq_or_lt_of_le hm with hm' | hm'
      · rw [← hm']
        exact hex
      · exact hstep.2.2 m hm' hlt
    · rw [if_neg hex]
      exact ⟨by simpa using hex, Nat.le_refl n, fun m hm hlt => absurd hlt (by omega)⟩

theorem firstFree_spec (fs : CfgFS) (p : Path) (fn : String) :
    fs.pathExists (bakPath p fn (firstFree fs p fn)) = false
    ∧ ∀ m, m < firstFree fs p fn → fs.pathExists (bakPath p fn m) = true := by
  obtain ⟨k, hk, hfree⟩ := exists_free_lt_bound fs p fn
  have h := firstFreeAux_spec fs p fn (bakBound fs) 0
    ⟨k, hk, by simpa using hfree⟩
  exact ⟨h.1, fun m hm => h.2.2 m (Nat.zero_le m) hm⟩

/-- C7: for a path with a file name whose file exists with content
`content`, `backup` copies it to the first nonexistent candidate among
`P.bak`, `P.bak.1`, `P.bak.2`, ...; the backup holds the identical
content and the original file is unchanged.  In particular the copy goes
to `P.bak` when that is absent, and to `P.bak.1` when only `P.bak`
exists. -/
theorem backup_spec (fs : CfgFS) (p : Path) (fn content : String)
    (hfn : file_name p = some fn)
    (hread : fs.readFile p = some content) :
    (∀ m, m < firstFree fs p fn → fs.pathExists (bakPath p fn m) = true)
    ∧ fs.pathExists (bakPath p fn (firstFree fs p fn)) = false
    ∧ backup fs p
        = Except.ok (fs.writeFile (bakPath p fn (firstFree fs p fn)) content)
    ∧ (fs.writeFile (bakPath p fn (firstFree fs p fn)) content).readFile
        (bakPath p fn (firstFree fs p fn)) = some content
    ∧ (fs.writeFile (bakPath p fn (firstFree fs p fn)) content).readFile p
        = some content
    ∧ (fs.pathExists (bakPath p fn 0) = false → firstFree fs p fn = 0)
    ∧ (fs.pathExists (bakPath p fn 0) = true →
        fs.pathExists (bakPath p fn 1) = false → firstFree fs p fn = 1) := by
  obtain ⟨hfree, hmin⟩ := firstFree_spec fs p fn
  have hg : p.getLast? = some fn := by
    rw [file_name] at hfn
    rcases hgl : p.getLast? with - | c <;> rw [hgl] at hfn
    · exact Option.noConfusion hfn
    · have hfn' : (if c = ".." then none else some c) = some fn := hfn
      by_cases hc : c = ".."
      · rw [if_pos hc] at hfn'
        exact Option.noConfusion hfn'
      · rw [if_neg hc] at hfn'
        injection hfn' with hcf
        subst hcf
        rfl
  refine ⟨hmin, hfree, ?_, writeFile_readFile_self _ _ _, ?_, ?_, ?_⟩
  · rw [backup, hfn, hread]
  · rw [writeFile_readFile_ne _ _ _ _ (bakPath_ne_self p fn _ hg)]
    exact hread
  · intro h0
    by_contra hne
    have := hmin 0 (Nat.pos_of_ne_zero hne)
    rw [h0] at this
    cases this
  · intro h0 h1
    have hne0 : firstFree fs p fn ≠ 0 := by
      intro hz
      rw [hz, h0] at hfree
      cases hfree
    have hle1 : firstFree fs p fn ≤ 1 := by
      by_contra hgt
      have := hmin 1 (by omega)
      rw [h1] at this
      cases this
    omega

/-- Witness for C7: a file `dir/f` with content `c` on a filesystem with
no existing backups. -/
theorem backup_spec_witness :
    (file_name ["dir", "f"] = some "f")
    ∧ (CfgFS.readFile ⟨[], [(["dir", "f"], "c")]⟩ ["dir", "f"] = some "c")
    ∧ ((∀ m, m < firstFree ⟨[], [(["dir", "f"], "c")]⟩ ["dir", "f"] "f" →
          CfgFS.pathExists ⟨[], [(["dir", "f"], "c")]⟩
            (bakPath ["dir", "f"] "f" m) = true)
      ∧ CfgFS.pathExists ⟨[], [(["dir", "f"], "c")]⟩
          (bakPath ["dir", "f"] "f"
            (firstFree ⟨[], [(["dir", "f"], "c")]⟩ ["dir", "f"] "f")) = false
      ∧ backup ⟨[], [(["dir", "f"], "c")]⟩ ["dir", "f"]
          = Except.ok (CfgFS.writeFile ⟨[], [(["dir", "f"], "c")]⟩
              (bakPath ["dir", "f"] "f"
                (firstFree ⟨[], [(["dir", "f"], "c")]⟩ ["dir", "f"] "f")) "c")
      ∧ (CfgFS.writeFile ⟨[], [(["dir", "f"], "c")]⟩
            (bakPath ["dir", "f"] "f"
              (firstFree ⟨[], [(["dir", "f"], "c")]⟩ ["dir", "f"] "f")) "c").readFile
          (bakPath ["dir", "f"] "f"
            (firstFree ⟨[], [(["dir", "f"], "c")]⟩ ["dir", "f"] "f")) = some "c"
      ∧ (CfgFS.writeFile ⟨[], [(["dir", "f"], "c")]⟩
            (bakPath ["dir", "f"] "f"
              (firstFree ⟨[], [(["dir", "f"], "c")]⟩ ["dir", "f"] "f")) "c").readFile
          ["dir", "f"] = some "c"
      ∧ (CfgFS.pathExists ⟨[], [(["dir", "f"], "c")]⟩
            (bakPath ["dir", "f"] "f" 0) = false →
          firstFree ⟨[], [(["dir", "f"], "c")]⟩ ["dir", "f"] "f" = 0)
      ∧ (CfgFS.pathExists ⟨[], [(["dir", "f"], "c")]⟩
            (bakPath ["dir", "f"] "f" 0) = true →
          CfgFS.pathExists ⟨[], [(["dir", "f"], "c")]⟩
            (bakPath ["dir", "f"] "f" 1) = false →
          firstFree ⟨[], [(["dir", "f"], "c")]⟩ ["dir", "f"] "f" = 1)) :=
  ⟨rfl, rfl, backup_spec ⟨[], [(["dir", "f"], "c")]⟩ ["dir", "f"] "f" "c" rfl rfl⟩

/-- C10: for a path with no final file-name component (the root, or a
path ending in `..`), `backup` fails with an `InvalidInput` error and
returns no new filesystem state: nothing is copied or modified. -/
theorem backup_invalid_path (fs : CfgFS) (p : Path) (h : file_name p = none) :
    backup fs p
      = Except.error ⟨ErrorKind.invalidInput, none, "Invalid path"⟩ := by
  rw [backup, h]

/-- Witness for C10 at the root path `/` and at a path ending in `..`. -/
theorem backup_invalid_path_witness :
    (file_name [] = none
      ∧ backup fs0 []
          = Except.error ⟨ErrorKind.invalidInput, none, "Invalid path"⟩)
    ∧ (file_name ["a", ".."] = none
      ∧ backup rfs0 ["a", ".."]
          = Except.error ⟨ErrorKind.invalidInput, none, "Invalid path"⟩) :=
  ⟨⟨rfl, backup_invalid_path fs0 [] rfl⟩,
   ⟨by decide, backup_invalid_path rfs0 ["a", ".."] (by decide)⟩⟩

/-! ## `almost_eq` -/

/-- Counterexample to C9: the claim says `almost_eq(x, x, 0)` is true
for every floating-point `x`, but at `x = 0.0` the code computes
`(0 - 0) / 0 = NaN`, and `NaN <= 0` is false, so `almost_eq(0.0, 0.0,
0.0)` is false. -/
theorem almost_eq_claim_counterexample :
    almost_eq (Fl.val 0) (Fl.val 0) (Fl.val 0) = false
    ∧ ¬ (∀ x : Fl, almost_eq x x (Fl.val 0) = true) := by
  constructor
  · norm_num [almost_eq, Fl.min, Fl.max, Fl.isNaN, Fl.le, Fl.sub, Fl.div]
  · intro h
    have h0 := h (Fl.val 0)
    norm_num [almost_eq, Fl.min, Fl.max, Fl.isNaN, Fl.le, Fl.sub, Fl.div] at h0

/-- C9 (amended): `almost_eq(x, x, 0)` is true for every finite nonzero
`x` — at `x = 0` (and at `NaN` and the infinities) it is false, because
`(x - x) / x` is `NaN` there and `NaN <= 0` is false; moreover
`almost_eq(1.0, 1.1, 0.1)` is true and `almost_eq(1.0, 1.1, 0.01)` is
false. -/
theorem almost_eq_amended :
    (∀ q : ℚ, q ≠ 0 → almost_eq (Fl.val q) (Fl.val q) (Fl.val 0) = true)
    ∧ almost_eq (Fl.val 0) (Fl.val 0) (Fl.val 0) = false
    ∧ almost_eq Fl.nan Fl.nan (Fl.val 0) = false
    ∧ almost_eq Fl.inf Fl.inf (Fl.val 0) = false
    ∧ almost_eq Fl.ninf Fl.ninf (Fl.val 0) = false
    ∧ almost_eq (Fl.val 1) (Fl.val (11 / 10)) (Fl.val (1 / 10)) = true
    ∧ almost_eq (Fl.val 1) (Fl.val (11 / 10)) (Fl.val (1 / 100)) = false := by
  refine ⟨?_, ?_, ?_, ?_, ?_, ?_, ?_⟩ <;>
    first
    | (intro q hq
       simp [almost_eq, Fl.min, Fl.max, Fl.isNaN, Fl.le, Fl.sub, Fl.div, hq])
    | norm_num [almost_eq, Fl.min, Fl.max, Fl.isNaN, Fl.le, Fl.sub, Fl.div]

/-- Witness for the amended C9 at `x = 1`. -/
theorem almost_eq_amended_witness :
    (1 : ℚ) ≠ 0 ∧ almost_eq (Fl.val 1) (Fl.val 1) (Fl.val 0) = true :=
  ⟨one_ne_zero, almost_eq_amended.1 1 one_ne_zero⟩

end Jdt
